import Mathlib

/-!
Shallow embedding of the Study Suggestion Engine and the SIGAA schedule-code
decoder of the study-planner repository.

Timestamps are modelled as integers counting milliseconds since the epoch
(the JavaScript `Date.getTime()` value).  The date-fns helpers used by the
source translate as:
  addMinutes(d, n)           = d + n * 60000
  differenceInDays(a, b)     = trunc((a - b) / 86400000)   (no DST modelled)
  isAfter(a, b)              = b < a
`Math.floor(x / 60000)` on an integer millisecond difference is floor
division, which for the positive literal divisors used here coincides with
Lean's `Int` division `/` (Euclidean division).

The engine exists twice in the repository:
  * the canonical version inside `src/src/hooks/useSubjects.tsx`
    (`useStudySuggestions`: finer urgency ladder, finished-subject filter,
    slot distributor, one subject per slot), embedded in namespace
    `StudyPlanner`;
  * a legacy version in `src/unnamed/part_012` (coarser urgency ladder, no
    status filter, block segmenter cycling through the priority list),
    embedded in namespace `StudyPlanner.Legacy` where a claim refers to it.
-/

namespace StudyPlanner

/-- Subject record as the engine consumes it (fields irrelevant to the
engine are omitted).  `difficulty_weight` and `dedication_weight` are
optional integer weights; `status` is an optional status string where
the value "finalizada" marks a finished subject. -/
structure Subject where
  id : String
  name : String
  status : Option String
  difficulty_weight : Option Nat
  dedication_weight : Option Nat
deriving DecidableEq, Repr, Inhabited

/-- Calendar event: used both for deadline events and free-study slots.
`start_datetime` is in epoch milliseconds; `end_datetime` is optional. -/
structure CalendarEvent where
  id : String
  subject_id : Option String
  start_datetime : Int
  end_datetime : Option Int
deriving DecidableEq, Repr, Inhabited

/-- Active study-delay record (only the fields the scorer reads). -/
structure StudyDelay where
  subject_id : String
  expires_at : Int
deriving DecidableEq, Repr, Inhabited

/-- Derived priority entry, mirroring the `SubjectPriority` interface. -/
structure SubjectPriority where
  subject : Subject
  difficultyWeight : Nat
  dedicationWeight : Nat
  urgencyFactor : Rat
  delayBonus : Rat
  score : Rat
  nearestDeadline : Option CalendarEvent
deriving DecidableEq, Repr, Inhabited

/-- Derived study/break block, mirroring the `StudyBlock` interface.
`startTime`/`endTime` are epoch milliseconds. -/
structure StudyBlock where
  id : String
  subject : Subject
  startTime : Int
  endTime : Int
  isBreak : Bool
  freeSlotId : Option String
deriving DecidableEq, Repr, Inhabited

/-- Derived suggestion: one free slot, its blocks, and the subject the
distributor assigned to the slot. -/
structure StudySuggestion where
  freeSlot : CalendarEvent
  blocks : List StudyBlock
  assignedSubject : Option Subject
deriving DecidableEq, Repr, Inhabited

/-- JavaScript truthiness of an optional number (undefined and 0 are falsy),
as used by the weight filter `subject.difficulty_weight && ...`. -/
def natTruthy : Option Nat → Bool
  | none => false
  | some n => n != 0

/-- JavaScript truthiness of an optional string (undefined, null and the
empty string are falsy), as used by the slot filter `!slot.subject_id`. -/
def strTruthy : Option String → Bool
  | none => false
  | some s => s != ""

/-- JavaScript `x || d` on an optional number (`undefined` and `0` fall back
to the default), as used by `subject.difficulty_weight || 3`. -/
def jsOr (x : Option Nat) (d : Nat) : Nat :=
  match x with
  | none => d
  | some n => if n = 0 then d else n

/-- date-fns `isAfter(a, b)`: a is strictly later than b. -/
def isAfter (a b : Int) : Bool := b < a

/-- date-fns `differenceInDays(a, b)`: number of full days between the two
instants, truncated toward zero (the engine only calls it with a later
than b, where truncation and floor agree). -/
def differenceInDays (a b : Int) : Int := Int.tdiv (a - b) 86400000

/-- `STUDY_BLOCK_MINUTES` constant. -/
def STUDY_BLOCK_MINUTES : Int := 50

/-- `BREAK_MINUTES` constant. -/
def BREAK_MINUTES : Int := 10

/-- `DELAY_BONUS` constant. -/
def DELAY_BONUS : Rat := 2

/-- `REPEAT_ONCE_THRESHOLD` constant (score at or above it earns one extra
slot). -/
def REPEAT_ONCE_THRESHOLD : Rat := 12

/-- `REPEAT_TRIPLE_THRESHOLD` constant (score at or above it earns three
extra slots). -/
def REPEAT_TRIPLE_THRESHOLD : Rat := 15

/-- Canonical urgency ladder (`calculateUrgencyFactor` in
`src/src/hooks/useSubjects.tsx`): the finer breakpoints the specification
adopts. -/
def calculateUrgencyFactor (daysUntilDeadline : Int) : Rat :=
  if daysUntilDeadline < 0 then 2
  else if daysUntilDeadline ≤ 1 then mkRat 3 2
  else if daysUntilDeadline ≤ 2 then mkRat 6 5
  else if daysUntilDeadline < 4 then 1
  else if daysUntilDeadline ≤ 7 then mkRat 1 2
  else 0

/-- Body of the `.map` inside `calculateSubjectPriorities`: score one
subject against its deadlines and the active delays at time `now`. -/
def scoreSubject (deadlines : List CalendarEvent) (activeDelays : List StudyDelay)
    (now : Int) (subject : Subject) : SubjectPriority :=
  let D := jsOr subject.difficulty_weight 3
  let B := jsOr subject.dedication_weight 3
  let subjectDeadlines :=
    ((deadlines.filter (fun d => d.subject_id == some subject.id)).filter
      (fun d => isAfter d.start_datetime now)).insertionSort
      (fun a b => a.start_datetime ≤ b.start_datetime)
  let nearestDeadline := subjectDeadlines.head?
  let urgencyFactor : Rat :=
    match nearestDeadline with
    | some dl => calculateUrgencyFactor (differenceInDays dl.start_datetime now)
    | none => 0
  let hasDelay := activeDelays.any (fun delay =>
    delay.subject_id == subject.id && isAfter delay.expires_at now)
  let delayBonus : Rat := if hasDelay then DELAY_BONUS else 0
  let baseScore : Rat := ((D : Rat) + (B : Rat)) * (1 + urgencyFactor)
  let score := baseScore + delayBonus
  { subject := subject, difficultyWeight := D, dedicationWeight := B,
    urgencyFactor := urgencyFactor, delayBonus := delayBonus, score := score,
    nearestDeadline := nearestDeadline }

/-- Eligibility filter of `calculateSubjectPriorities`: both weights set
(truthy) and the subject not finished. -/
def eligibleSubject (s : Subject) : Bool :=
  natTruthy s.difficulty_weight && natTruthy s.dedication_weight &&
    s.status != some "finalizada"

/-- Stable descending comparison by score (the JavaScript comparator
`(a, b) => b.score - a.score` under a stable sort; `insertionSort` is the
stable sort used throughout this embedding). -/
def scoreDesc (a b : SubjectPriority) : Prop := b.score ≤ a.score

instance : DecidableRel scoreDesc :=
  fun a b => inferInstanceAs (Decidable (b.score ≤ a.score))

/-- Canonical `calculateSubjectPriorities`: filter eligible subjects, score
each, sort descending by score (stable). -/
def calculateSubjectPriorities (subjects : List Subject)
    (deadlines : List CalendarEvent) (activeDelays : List StudyDelay)
    (now : Int) : List SubjectPriority :=
  ((subjects.filter eligibleSubject).map
    (scoreSubject deadlines activeDelays now)).insertionSort scoreDesc

/-- `getExtraSlots` inside `distributeSubjectsToSlots`: extra slot count
earned by a score. -/
def getExtraSlots (score : Rat) : Nat :=
  if REPEAT_TRIPLE_THRESHOLD ≤ score then 3
  else if REPEAT_ONCE_THRESHOLD ≤ score then 1
  else 0

/-- The cyclic padding loop of `distributeSubjectsToSlots`
(`allocation.push(priorities[idx % priorities.length])`, idx counting
up from 0): `k` further entries taken cyclically from `priorities`.
The default `dflt` is never reached when `priorities` is non-empty. -/
def cyclePad (priorities : List SubjectPriority) (dflt : SubjectPriority)
    (k : Nat) : List SubjectPriority :=
  (List.range k).map (fun i => priorities.getD (i % priorities.length) dflt)

/-- Canonical `distributeSubjectsToSlots`: base entry per subject plus
score-threshold extras, then cyclic padding up to `numSlots` or
descending-score truncation down to `numSlots`. -/
def distributeSubjectsToSlots (priorities : List SubjectPriority)
    (numSlots : Nat) : List SubjectPriority :=
  match priorities with
  | [] => []
  | p0 :: _ =>
    if numSlots = 0 then []
    else
      let allocation := priorities.flatMap (fun priority =>
        priority :: List.replicate (getExtraSlots priority.score) priority)
      let allocation :=
        if allocation.length < numSlots then
          allocation ++ cyclePad priorities p0 (numSlots - allocation.length)
        else allocation
      if numSlots < allocation.length then
        (allocation.insertionSort scoreDesc).take numSlots
      else allocation

/-- Loop body of `generateStudyBlocksForSubject` (canonical segmenter,
one fixed subject per slot).  `remainingMinutes` and
`afterBreakRemaining` use `Math.floor` of a millisecond difference over
60000; `addMinutes` is inlined as `+ n * 60000`.  The source's
`while (true)` loop is modelled with an explicit `fuel` argument so the
recursion is structural; the caller passes at least the remaining
milliseconds, and the loop invariant (below) shows the fuel is then
never exhausted before the loop's own stop condition fires, so the
fuel is an upper bound, not an observable cut-off. -/
def blocksLoopForSubject (slotId : String) (subj : Subject) (slotEnd : Int) :
    Nat → Int → List StudyBlock → List StudyBlock
  | 0, _, blocks => blocks
  | fuel + 1, currentTime, blocks =>
    let remainingMinutes := (slotEnd - currentTime) / 60000
    if remainingMinutes < 20 then blocks
    else
      let studyMinutes := min STUDY_BLOCK_MINUTES remainingMinutes
      let studyEnd := currentTime + studyMinutes * 60000
      let blocks' := blocks ++
        [{ id := slotId ++ "-block-" ++ toString blocks.length, subject := subj,
           startTime := currentTime, endTime := studyEnd, isBreak := false,
           freeSlotId := some slotId }]
      let afterBreakRemaining := (slotEnd - (studyEnd + BREAK_MINUTES * 60000)) / 60000
      if 20 ≤ afterBreakRemaining then
        let breakEnd := studyEnd + BREAK_MINUTES * 60000
        let blocks'' := blocks' ++
          [{ id := slotId ++ "-break-" ++ toString blocks'.length, subject := subj,
             startTime := studyEnd, endTime := breakEnd, isBreak := true,
             freeSlotId := some slotId }]
        blocksLoopForSubject slotId subj slotEnd fuel breakEnd blocks''
      else blocks'

/-- Canonical `generateStudyBlocksForSubject`: segment one free slot for
the single assigned priority. -/
def generateStudyBlocksForSubject (freeSlot : CalendarEvent)
    (priority : SubjectPriority) : List StudyBlock :=
  match freeSlot.end_datetime with
  | none => []
  | some slotEnd =>
    blocksLoopForSubject freeSlot.id priority.subject slotEnd
      (slotEnd - freeSlot.start_datetime).toNat freeSlot.start_datetime []

/-- Ascending stable comparison of events by start time (the JavaScript
comparator `(a, b) => a.start - b.start` under a stable sort). -/
def startAsc (a b : CalendarEvent) : Prop :=
  a.start_datetime ≤ b.start_datetime

instance : DecidableRel startAsc :=
  fun a b => inferInstanceAs (Decidable (a.start_datetime ≤ b.start_datetime))

/-- Canonical `generateSuggestions`: keep future, non-manually-assigned
free slots (sorted by start), score the subjects, distribute them over the
slots, segment each slot for its assigned subject, and drop empty
suggestions. -/
def generateSuggestions (subjects : List Subject)
    (freeSlots : List CalendarEvent) (deadlines : List CalendarEvent)
    (activeDelays : List StudyDelay) (now : Int) : List StudySuggestion :=
  let futureFreeSlots :=
    ((freeSlots.filter (fun slot => isAfter slot.start_datetime now)).filter
      (fun slot => !strTruthy slot.subject_id)).insertionSort startAsc
  if futureFreeSlots.length = 0 ∨ subjects.length = 0 then []
  else
    let priorities := calculateSubjectPriorities subjects deadlines activeDelays now
    if priorities.length = 0 then []
    else
      let distribution := distributeSubjectsToSlots priorities futureFreeSlots.length
      ((futureFreeSlots.enum).map (fun p =>
        match distribution.get? p.1 with
        | some assignedPriority =>
          { freeSlot := p.2,
            blocks := generateStudyBlocksForSubject p.2 assignedPriority,
            assignedSubject := some assignedPriority.subject }
        | none =>
          { freeSlot := p.2, blocks := [], assignedSubject := none })).filter
        (fun s => 0 < s.blocks.length)

/-- Chain predicate over a block list: the first block starts at `t` and
every later block starts where its predecessor ends. -/
def chainFrom : Int → List StudyBlock → Bool
  | _, [] => true
  | t, b :: rest => b.startTime == t && chainFrom b.endTime rest

namespace Legacy

/-- Loop body of the legacy `generateStudyBlocks`
(`src/unnamed/part_012`): same cursor arithmetic as the canonical loop,
but the studied subject is `prioritizedSubjects[subjectIndex %
prioritizedSubjects.length]` and `subjectIndex` advances after each
break.  The `getD` default is never reached: the caller rejects an empty
priority list. -/
def generateStudyBlocksLoop (slotId : String)
    (prioritizedSubjects : List SubjectPriority) (slotEnd : Int) :
    Nat → Int → Nat → List StudyBlock → List StudyBlock
  | 0, _, _, blocks => blocks
  | fuel + 1, currentTime, subjectIndex, blocks =>
    let remainingMinutes := (slotEnd - currentTime) / 60000
    if remainingMinutes < 20 then blocks
    else
      let studyMinutes := min STUDY_BLOCK_MINUTES remainingMinutes
      let studyEnd := currentTime + studyMinutes * 60000
      let priority := prioritizedSubjects.getD
        (subjectIndex % prioritizedSubjects.length) default
      let blocks' := blocks ++
        [{ id := slotId ++ "-block-" ++ toString blocks.length,
           subject := priority.subject, startTime := currentTime,
           endTime := studyEnd, isBreak := false, freeSlotId := some slotId }]
      let afterBreakRemaining := (slotEnd - (studyEnd + BREAK_MINUTES * 60000)) / 60000
      if 20 ≤ afterBreakRemaining then
        let breakEnd := studyEnd + BREAK_MINUTES * 60000
        let blocks'' := blocks' ++
          [{ id := slotId ++ "-break-" ++ toString blocks'.length,
             subject := priority.subject, startTime := studyEnd,
             endTime := breakEnd, isBreak := true, freeSlotId := some slotId }]
        generateStudyBlocksLoop slotId prioritizedSubjects slotEnd fuel breakEnd
          (subjectIndex + 1) blocks''
      else blocks' 

/-- Legacy `generateStudyBlocks` (`src/unnamed/part_012`): returns no
blocks when the slot lacks an end time or the priority list is empty,
otherwise runs the segmentation loop from the slot start. -/
def generateStudyBlocks (freeSlot : CalendarEvent)
    (prioritizedSubjects : List SubjectPriority) : List StudyBlock :=
  match freeSlot.end_datetime with
  | none => []
  | some slotEnd =>
    if prioritizedSubjects.length = 0 then []
    else
      generateStudyBlocksLoop freeSlot.id prioritizedSubjects slotEnd
        (slotEnd - freeSlot.start_datetime).toNat freeSlot.start_datetime 0 []

end Legacy

namespace Sigaa

/-- Decoded schedule: `day_of_week` is JavaScript's 0 = Sunday … 6 =
Saturday convention, times are "HH:MM" strings. -/
structure ParsedSchedule where
  day_of_week : Nat
  start_time : String
  end_time : String
deriving DecidableEq, Repr

/-- `DAY_MAP`: SIGAA weekday digit to JavaScript day of week
(digit 2 = Monday … digit 7 = Saturday). -/
def DAY_MAP (c : Char) : Option Nat :=
  if c = '2' then some 1
  else if c = '3' then some 2
  else if c = '4' then some 3
  else if c = '5' then some 4
  else if c = '6' then some 5
  else if c = '7' then some 6
  else none

/-- `SHIFT_BLOCKS`: per shift letter, the (start, end) times of each block
digit.  Morning and afternoon blocks are exact hours from 07:00 and 13:00;
evening blocks are the irregular 18:30/19:20/20:10/21:00/21:50 grid. -/
def SHIFT_BLOCKS (shift : Char) (b : Char) : Option (String × String) :=
  match shift with
  | 'M' =>
    if b = '1' then some ("07:00", "08:00")
    else if b = '2' then some ("08:00", "09:00")
    else if b = '3' then some ("09:00", "10:00")
    else if b = '4' then some ("10:00", "11:00")
    else if b = '5' then some ("11:00", "12:00")
    else if b = '6' then some ("12:00", "13:00")
    else none
  | 'T' =>
    if b = '1' then some ("13:00", "14:00")
    else if b = '2' then some ("14:00", "15:00")
    else if b = '3' then some ("15:00", "16:00")
    else if b = '4' then some ("16:00", "17:00")
    else if b = '5' then some ("17:00", "18:00")
    else if b = '6' then some ("18:00", "19:00")
    else none
  | 'N' =>
    if b = '1' then some ("18:30", "19:20")
    else if b = '2' then some ("19:20", "20:10")
    else if b = '3' then some ("20:10", "21:00")
    else if b = '4' then some ("21:00", "21:50")
    else none
  | _ => none

/-- JavaScript `String.prototype.trim`: drop leading and trailing
whitespace (modelled over the character list). -/
def jsTrim (s : String) : String :=
  ⟨((s.data.dropWhile Char.isWhitespace).reverse.dropWhile
      Char.isWhitespace).reverse⟩

/-- JavaScript `String.prototype.toUpperCase` (modelled over the
character list). -/
def jsToUpper (s : String) : String := ⟨s.data.map Char.toUpper⟩

/-- Case-insensitive shift letter test, the `[MTN]` part of the pattern. -/
def isShiftLetter (c : Char) : Bool :=
  c == 'M' || c == 'T' || c == 'N' || c == 'm' || c == 't' || c == 'n'

/-- The regular-expression pattern of the decoder, as a predicate on a
string: one digit, one of M/T/N in either case, then one or more digits,
nothing else.  This follows the spec's words; `extractComponents` below
is the code's use of it. -/
def matchesSigaaPattern (s : String) : Bool :=
  match s.data with
  | day :: shift :: blocks =>
    day.isDigit && isShiftLetter shift && !blocks.isEmpty &&
      blocks.all Char.isDigit
  | _ => false

/-- `extractComponents`: match the code against the pattern and return the
weekday digit, the uppercased shift letter and the individual block
digits. -/
def extractComponents (code : String) :
    Option (Char × Char × List Char) :=
  match code.data with
  | day :: shift :: blocks =>
    if day.isDigit && isShiftLetter shift && !blocks.isEmpty &&
        blocks.all Char.isDigit then
      some (day, shift.toUpper, blocks)
    else none
  | _ => none

/-- Numeric value of a block digit (`parseInt` on a one-character digit
string). -/
def digitVal (c : Char) : Nat := c.toNat - 48

/-- `parseSigaaSchedule`: trim and uppercase the code, match the pattern,
validate the weekday digit, keep the block digits valid for the shift,
sort them numerically, and read the start of the lowest and the end of the
highest block.  The final `none` fallbacks are unreachable: the sorted
list is non-empty and all its members index valid blocks. -/
def parseSigaaSchedule (code : String) : Option ParsedSchedule :=
  if code = "" then none
  else
    let cleaned := jsToUpper (jsTrim code)
    match extractComponents cleaned with
    | none => none
    | some (dayDigit, shift, blocks) =>
      match DAY_MAP dayDigit with
      | none => none
      | some dayOfWeek =>
        let validBlocks := blocks.filter (fun b => (SHIFT_BLOCKS shift b).isSome)
        if validBlocks.length = 0 then none
        else
          let sorted := validBlocks.insertionSort (fun a b => digitVal a ≤ digitVal b)
          match sorted with
          | [] => none
          | firstBlock :: _ =>
            let lastBlock := sorted.getLastD firstBlock
            match SHIFT_BLOCKS shift firstBlock, SHIFT_BLOCKS shift lastBlock with
            | some fb, some lb =>
              some { day_of_week := dayOfWeek, start_time := fb.1,
                     end_time := lb.2 }
            | _, _ => none

/-- Valid block index for a shift, per the spec's tables: digits 1–6 for
morning and afternoon, 1–4 for the evening grid. -/
def validBlockIndex (shift b : Char) : Bool :=
  (SHIFT_BLOCKS shift b).isSome

end Sigaa

/-! Concrete fixtures used by witness theorems. -/

/-- Fixture: an active subject with both weights set. -/
def subjA : Subject :=
  { id := "sA", name := "Algebra", status := some "ativa",
    difficulty_weight := some 4, dedication_weight := some 5 }

/-- Fixture: an active subject with both weights set and no deadline. -/
def subjB : Subject :=
  { id := "sB", name := "Biology", status := none,
    difficulty_weight := some 3, dedication_weight := some 3 }

/-- Fixture: a finished subject with both weights set. -/
def subjFin : Subject :=
  { id := "sF", name := "Finished", status := some "finalizada",
    difficulty_weight := some 4, dedication_weight := some 5 }

/-- Fixture: a deadline for `subjA`, five full days after time 0. -/
def dlA : CalendarEvent :=
  { id := "d1", subject_id := some "sA",
    start_datetime := 5 * 86400000 + 100, end_datetime := none }

/-- Fixture: a free slot of 120 minutes starting at 1000000 ms. -/
def slotA : CalendarEvent :=
  { id := "slot1", subject_id := none, start_datetime := 1000000,
    end_datetime := some 8200000 }

/-- Fixture: a free slot of exactly 45 minutes starting at 1000000 ms. -/
def slot45 : CalendarEvent :=
  { id := "slot45", subject_id := none, start_datetime := 1000000,
    end_datetime := some 3700000 }

/-- Fixture: a plain priority entry for `subjA`. -/
def pX : SubjectPriority :=
  { subject := subjA, difficultyWeight := 4, dedicationWeight := 5,
    urgencyFactor := 0, delayBonus := 0, score := 9, nearestDeadline := none }

/-- Fixture: the priority entry the scorer computes for `subjA` against
`dlA` at time 0 (urgency 0.5, score 13.5). -/
def pA : SubjectPriority :=
  { subject := subjA, difficultyWeight := 4, dedicationWeight := 5,
    urgencyFactor := mkRat 1 2, delayBonus := 0, score := mkRat 27 2,
    nearestDeadline := some dlA }

/-- Fixture: the priority entry the scorer computes for `subjB` with no
deadlines at time 0 (urgency 0, score 6). -/
def pB : SubjectPriority :=
  { subject := subjB, difficultyWeight := 3, dedicationWeight := 3,
    urgencyFactor := 0, delayBonus := 0, score := 6,
    nearestDeadline := none }

/-- Fixture: the suggestion the orchestrator produces for `subjB` in
`slotA` at time 0. -/
def sugB : StudySuggestion :=
  { freeSlot := slotA, blocks := generateStudyBlocksForSubject slotA pB,
    assignedSubject := some subjB }

/-- Fixture: the single 45-minute study block the segmenter carves out of
`slot45`. -/
def blk45 : StudyBlock :=
  { id := "slot45-block-0", subject := subjA, startTime := 1000000,
    endTime := 3700000, isBreak := false, freeSlotId := some "slot45" }

/-- Fixture: the 10-minute break block the segmenter places in the middle
of the 120-minute `slotA`. -/
def blkBreakA : StudyBlock :=
  { id := "slot1-break-1", subject := subjA, startTime := 4000000,
    endTime := 4600000, isBreak := true, freeSlotId := some "slot1" }

/-! Helper lemmas shared between the claim theorems. -/

/-- Urgency factors are never negative. -/
theorem calculateUrgencyFactor_nonneg (d : Int) :
    0 ≤ calculateUrgencyFactor d := by
  unfold calculateUrgencyFactor
  split_ifs <;> norm_num

/-- A truthy optional weight falls through `jsOr` to a positive value. -/
theorem jsOr_pos {x : Option Nat} (h : natTruthy x = true) :
    1 ≤ jsOr x 3 := by
  cases x with
  | none => simp [natTruthy] at h
  | some n =>
    simp [natTruthy] at h
    simp [jsOr, h]
    omega

/-- Membership in the ranked priority list, unfolded to the filter and the
per-subject scoring map. -/
theorem mem_calculateSubjectPriorities {subs : List Subject}
    {dls : List CalendarEvent} {dels : List StudyDelay} {now : Int}
    {p : SubjectPriority} :
    p ∈ calculateSubjectPriorities subs dls dels now ↔
      ∃ s, s ∈ subs ∧ eligibleSubject s = true ∧
        p = scoreSubject dls dels now s := by
  unfold calculateSubjectPriorities
  rw [(List.perm_insertionSort _ _).mem_iff, List.mem_map]
  constructor
  · rintro ⟨s, hs, rfl⟩
    rw [List.mem_filter] at hs
    exact ⟨s, hs.1, hs.2, rfl⟩
  · rintro ⟨s, hs, he, rfl⟩
    exact ⟨s, List.mem_filter.mpr ⟨hs, he⟩, rfl⟩

/-- The scored entry keeps the subject it was computed from. -/
theorem scoreSubject_subject (dls : List CalendarEvent)
    (dels : List StudyDelay) (now : Int) (s : Subject) :
    (scoreSubject dls dels now s).subject = s := rfl

/-- The base allocation (one entry plus extras per subject) is at least as
long as the priority list itself. -/
theorem length_le_baseAllocation (l : List SubjectPriority) :
    l.length ≤ (l.flatMap (fun priority =>
      priority :: List.replicate (getExtraSlots priority.score)
        priority)).length := by
  induction l with
  | nil => simp
  | cons p rest ih =>
    simp only [List.flatMap_cons, List.length_append, List.length_cons]
    omega

/-- The cyclic pad has exactly the requested length. -/
theorem cyclePad_length (ps : List SubjectPriority) (dflt : SubjectPriority)
    (k : Nat) : (cyclePad ps dflt k).length = k := by
  simp [cyclePad]

/-- C8: the schedule-code decoder produces the four exact results the
specification fixes: "3N34" is Tuesday (day 2) 20:10–21:50, "2T23" is
Monday (day 1) 14:00–16:00, "5M12" is Thursday (day 4) 07:00–09:00, and
"9X99" decodes to nothing. -/
theorem decoder_fixed_examples :
    Sigaa.parseSigaaSchedule "3N34" =
        some { day_of_week := 2, start_time := "20:10", end_time := "21:50" } ∧
      Sigaa.parseSigaaSchedule "2T23" =
        some { day_of_week := 1, start_time := "14:00", end_time := "16:00" } ∧
      Sigaa.parseSigaaSchedule "5M12" =
        some { day_of_week := 4, start_time := "07:00", end_time := "09:00" } ∧
      Sigaa.parseSigaaSchedule "9X99" = none := by
  refine ⟨?_, ?_, ?_, ?_⟩ <;> decide

/-- C3: the ranked priority list never contains a finished subject
(status "finalizada"), whatever the inputs. -/
theorem no_finished_subject_in_priorities (subs : List Subject)
    (dls : List CalendarEvent) (dels : List StudyDelay) (now : Int)
    (p : SubjectPriority)
    (hp : p ∈ calculateSubjectPriorities subs dls dels now) :
    p.subject.status ≠ some "finalizada" := by
  obtain ⟨s, _, he, rfl⟩ := mem_calculateSubjectPriorities.mp hp
  rw [scoreSubject_subject]
  simp only [eligibleSubject, Bool.and_eq_true, bne_iff_ne] at he
  exact he.2

/-- C3 witness: with a finished and an active subject as input, the entry
the scorer produces is for the active subject, and the theorem rules out
the finished status on it. -/
theorem no_finished_subject_in_priorities_witness :
    (scoreSubject [dlA] [] 0 subjA).subject.status ≠ some "finalizada" :=
  no_finished_subject_in_priorities [subjFin, subjA] [dlA] [] 0
    (scoreSubject [dlA] [] 0 subjA)
    (by
      have h : calculateSubjectPriorities [subjFin, subjA] [dlA] [] 0 =
          [scoreSubject [dlA] [] 0 subjA] := rfl
      rw [h]
      exact List.mem_singleton.mpr rfl)

/-- C2: for a non-empty priority list, the slot distributor returns
exactly `numSlots` entries, for every slot count. -/
theorem distributeSubjectsToSlots_length (ps : List SubjectPriority)
    (numSlots : Nat) (hps : ps ≠ []) :
    (distributeSubjectsToSlots ps numSlots).length = numSlots := by
  match ps with
  | [] => exact absurd rfl hps
  | p0 :: rest =>
    show (distributeSubjectsToSlots (p0 :: rest) numSlots).length = numSlots
    unfold distributeSubjectsToSlots
    by_cases hn : numSlots = 0
    · simp [hn]
    · simp only [if_neg hn]
      set A := (p0 :: rest).flatMap (fun priority =>
        priority :: List.replicate (getExtraSlots priority.score) priority)
        with hA
      have hAlen : 1 ≤ A.length := by
        have := length_le_baseAllocation (p0 :: rest)
        simp only [← hA] at this
        simp only [List.length_cons] at this
        omega
      by_cases hlt : A.length < numSlots
      · simp only [if_pos hlt]
        have hpad : (A ++ cyclePad (p0 :: rest) p0
            (numSlots - A.length)).length = numSlots := by
          rw [List.length_append, cyclePad_length]
          omega
        rw [if_neg (by omega : ¬ numSlots <
          (A ++ cyclePad (p0 :: rest) p0 (numSlots - A.length)).length)]
        exact hpad
      · simp only [if_neg hlt]
        by_cases hgt : numSlots < A.length
        · rw [if_pos hgt, List.length_take,
            (List.perm_insertionSort scoreDesc A).length_eq]
          omega
        · rw [if_neg hgt]
          omega

/-- C2 witness: one concrete priority and five slots give exactly five
entries. -/
theorem distributeSubjectsToSlots_length_witness :
    (distributeSubjectsToSlots [pX] 5).length = 5 :=
  distributeSubjectsToSlots_length [pX] 5 (by decide)

/-- The urgency factor of a scored entry is determined by its nearest
deadline exactly as the source computes it. -/
theorem scoreSubject_urgencyFactor (dls : List CalendarEvent)
    (dels : List StudyDelay) (now : Int) (s : Subject) :
    (scoreSubject dls dels now s).urgencyFactor =
      match (scoreSubject dls dels now s).nearestDeadline with
      | some dl => calculateUrgencyFactor (differenceInDays dl.start_datetime now)
      | none => 0 := rfl

/-- The score of a scored entry is literally the formula
(D + B) * (1 + U) + delayBonus over its own fields. -/
theorem scoreSubject_score (dls : List CalendarEvent)
    (dels : List StudyDelay) (now : Int) (s : Subject) :
    (scoreSubject dls dels now s).score =
      (((scoreSubject dls dels now s).difficultyWeight : Rat) +
          ((scoreSubject dls dels now s).dedicationWeight : Rat)) *
        (1 + (scoreSubject dls dels now s).urgencyFactor) +
        (scoreSubject dls dels now s).delayBonus := rfl

/-- The delay bonus of a scored entry is never negative (it is 0 or 2). -/
theorem scoreSubject_delayBonus_nonneg (dls : List CalendarEvent)
    (dels : List StudyDelay) (now : Int) (s : Subject) :
    0 ≤ (scoreSubject dls dels now s).delayBonus := by
  have h : (scoreSubject dls dels now s).delayBonus =
      if (dels.any (fun delay =>
        delay.subject_id == s.id && isAfter delay.expires_at now)) = true
      then DELAY_BONUS else 0 := rfl
  rw [h]
  split
  · simp [DELAY_BONUS]
  · simp

/-- The urgency factor of a scored entry is never negative. -/
theorem scoreSubject_urgencyFactor_nonneg (dls : List CalendarEvent)
    (dels : List StudyDelay) (now : Int) (s : Subject) :
    0 ≤ (scoreSubject dls dels now s).urgencyFactor := by
  rw [scoreSubject_urgencyFactor]
  rcases h : (scoreSubject dls dels now s).nearestDeadline with _ | dl
  · simp
  · simpa using calculateUrgencyFactor_nonneg (differenceInDays dl.start_datetime now)

/-- C1: the canonical priority scorer maps days-until-deadline to the
finer urgency ladder (past deadline 2.0, last day 1.5, penultimate day
1.2, under four days 1.0, up to a week 0.5, further out 0.0;
`mkRat 3 2` is 1.5, `mkRat 6 5` is 1.2, `mkRat 1 2` is 0.5); in
particular daysUntil = -1 maps to 2.0.  Inside the ranked list, an entry
without a nearest future deadline carries urgency 0.0, and an entry with
one carries exactly the ladder value of its full-day distance. -/
theorem urgency_ladder_canonical :
    (∀ d : Int, d < 0 → calculateUrgencyFactor d = 2) ∧
    (∀ d : Int, 0 ≤ d → d ≤ 1 → calculateUrgencyFactor d = mkRat 3 2) ∧
    (∀ d : Int, d = 2 → calculateUrgencyFactor d = mkRat 6 5) ∧
    (∀ d : Int, d = 3 → calculateUrgencyFactor d = 1) ∧
    (∀ d : Int, 4 ≤ d → d ≤ 7 → calculateUrgencyFactor d = mkRat 1 2) ∧
    (∀ d : Int, 8 ≤ d → calculateUrgencyFactor d = 0) ∧
    calculateUrgencyFactor (-1) = 2 ∧
    (∀ (subs : List Subject) (dls : List CalendarEvent)
        (dels : List StudyDelay) (now : Int) (p : SubjectPriority),
      p ∈ calculateSubjectPriorities subs dls dels now →
        (p.nearestDeadline = none → p.urgencyFactor = 0) ∧
        (∀ dl, p.nearestDeadline = some dl →
          p.urgencyFactor =
            calculateUrgencyFactor (differenceInDays dl.start_datetime now))) := by
  refine ⟨?_, ?_, ?_, ?_, ?_, ?_, by decide, ?_⟩
  · intro d hd
    unfold calculateUrgencyFactor
    rw [if_pos hd]
  · intro d hd0 hd1
    unfold calculateUrgencyFactor
    rw [if_neg (by omega), if_pos hd1]
  · intro d hd
    subst hd
    decide
  · intro d hd
    subst hd
    decide
  · intro d hd4 hd7
    unfold calculateUrgencyFactor
    split_ifs <;> first | rfl | omega
  · intro d hd
    unfold calculateUrgencyFactor
    split_ifs <;> first | rfl | omega
  · intro subs dls dels now p hp
    obtain ⟨s, _, _, rfl⟩ := mem_calculateSubjectPriorities.mp hp
    constructor
    · intro hnone
      rw [scoreSubject_urgencyFactor, hnone]
    · intro dl hdl
      rw [scoreSubject_urgencyFactor, hdl]

/-- C1 witness: the ladder evaluated across all six bands, the past-due
day, and both pipeline cases (an entry with a five-day deadline and one
with no deadline), at concrete inputs. -/
theorem urgency_ladder_canonical_witness :
    calculateUrgencyFactor (-5) = 2 ∧
    calculateUrgencyFactor 1 = mkRat 3 2 ∧
    calculateUrgencyFactor 2 = mkRat 6 5 ∧
    calculateUrgencyFactor 3 = 1 ∧
    calculateUrgencyFactor 5 = mkRat 1 2 ∧
    calculateUrgencyFactor 9 = 0 ∧
    calculateUrgencyFactor (-1) = 2 ∧
    (scoreSubject [] [] 0 subjB).urgencyFactor = 0 ∧
    (scoreSubject [dlA] [] 0 subjA).urgencyFactor =
      calculateUrgencyFactor (differenceInDays dlA.start_datetime 0) := by
  refine ⟨urgency_ladder_canonical.1 (-5) (by decide),
    urgency_ladder_canonical.2.1 1 (by decide) (by decide),
    urgency_ladder_canonical.2.2.1 2 (by decide),
    urgency_ladder_canonical.2.2.2.1 3 (by decide),
    urgency_ladder_canonical.2.2.2.2.1 5 (by decide) (by decide),
    urgency_ladder_canonical.2.2.2.2.2.1 9 (by decide),
    urgency_ladder_canonical.2.2.2.2.2.2.1, ?_, ?_⟩
  · exact (urgency_ladder_canonical.2.2.2.2.2.2.2 [subjB] [] [] 0
      (scoreSubject [] [] 0 subjB)
      (by
        have h : calculateSubjectPriorities [subjB] [] [] 0 =
            [scoreSubject [] [] 0 subjB] := rfl
        rw [h]
        exact List.mem_singleton.mpr rfl)).1 rfl
  · exact (urgency_ladder_canonical.2.2.2.2.2.2.2 [subjA] [dlA] [] 0
      (scoreSubject [dlA] [] 0 subjA)
      (by
        have h : calculateSubjectPriorities [subjA] [dlA] [] 0 =
            [scoreSubject [dlA] [] 0 subjA] := rfl
        rw [h]
        exact List.mem_singleton.mpr rfl)).2 dlA rfl

/-- C6: every ranked entry's score is exactly
(D + B) * (1 + urgencyFactor) + delayBonus and is non-negative, and the
score expression is monotonically non-decreasing in D, in B (for weights
in [1, 5]) and in the urgency factor, independently. -/
theorem score_formula_and_monotonicity :
    (∀ (subs : List Subject) (dls : List CalendarEvent)
        (dels : List StudyDelay) (now : Int) (p : SubjectPriority),
      p ∈ calculateSubjectPriorities subs dls dels now →
        p.score = ((p.difficultyWeight : Rat) + (p.dedicationWeight : Rat)) *
            (1 + p.urgencyFactor) + p.delayBonus ∧ 0 ≤ p.score) ∧
    (∀ D D' B U bonus : Rat, 1 ≤ D → D ≤ D' → D' ≤ 5 → 1 ≤ B → B ≤ 5 →
      (∃ d : Int, U = calculateUrgencyFactor d) → 0 ≤ bonus →
      (D + B) * (1 + U) + bonus ≤ (D' + B) * (1 + U) + bonus) ∧
    (∀ D B B' U bonus : Rat, 1 ≤ D → D ≤ 5 → 1 ≤ B → B ≤ B' → B' ≤ 5 →
      (∃ d : Int, U = calculateUrgencyFactor d) → 0 ≤ bonus →
      (D + B) * (1 + U) + bonus ≤ (D + B') * (1 + U) + bonus) ∧
    (∀ (D B bonus : Rat) (d d' : Int), 1 ≤ D → D ≤ 5 → 1 ≤ B → B ≤ 5 →
      calculateUrgencyFactor d ≤ calculateUrgencyFactor d' → 0 ≤ bonus →
      (D + B) * (1 + calculateUrgencyFactor d) + bonus ≤
        (D + B) * (1 + calculateUrgencyFactor d') + bonus) := by
  refine ⟨?_, ?_, ?_, ?_⟩
  · intro subs dls dels now p hp
    obtain ⟨s, _, he, rfl⟩ := mem_calculateSubjectPriorities.mp hp
    refine ⟨scoreSubject_score dls dels now s, ?_⟩
    simp only [eligibleSubject, Bool.and_eq_true] at he
    have hD : 1 ≤ jsOr s.difficulty_weight 3 := jsOr_pos he.1.1
    have hB : 1 ≤ jsOr s.dedication_weight 3 := jsOr_pos he.1.2
    have hDq : (1 : Rat) ≤ ((scoreSubject dls dels now s).difficultyWeight : Rat) := by
      exact_mod_cast hD
    have hBq : (1 : Rat) ≤ ((scoreSubject dls dels now s).dedicationWeight : Rat) := by
      exact_mod_cast hB
    have hU := scoreSubject_urgencyFactor_nonneg dls dels now s
    have hBo := scoreSubject_delayBonus_nonneg dls dels now s
    rw [scoreSubject_score]
    have hprod : 0 ≤
        (((scoreSubject dls dels now s).difficultyWeight : Rat) +
            ((scoreSubject dls dels now s).dedicationWeight : Rat)) *
          (1 + (scoreSubject dls dels now s).urgencyFactor) :=
      mul_nonneg (by linarith) (by linarith)
    linarith
  · intro D D' B U bonus h1 h2 h3 h4 h5 hU hb
    obtain ⟨d, rfl⟩ := hU
    have hU0 := calculateUrgencyFactor_nonneg d
    have hexp : (D' + B) * (1 + calculateUrgencyFactor d) + bonus -
        ((D + B) * (1 + calculateUrgencyFactor d) + bonus) =
        (D' - D) * (1 + calculateUrgencyFactor d) := by ring
    have hge : 0 ≤ (D' - D) * (1 + calculateUrgencyFactor d) :=
      mul_nonneg (by linarith) (by linarith)
    linarith
  · intro D B B' U bonus h1 h2 h3 h4 h5 hU hb
    obtain ⟨d, rfl⟩ := hU
    have hU0 := calculateUrgencyFactor_nonneg d
    have hexp : (D + B') * (1 + calculateUrgencyFactor d) + bonus -
        ((D + B) * (1 + calculateUrgencyFactor d) + bonus) =
        (B' - B) * (1 + calculateUrgencyFactor d) := by ring
    have hge : 0 ≤ (B' - B) * (1 + calculateUrgencyFactor d) :=
      mul_nonneg (by linarith) (by linarith)
    linarith
  · intro D B bonus d d' h1 h2 h3 h4 hUU hb
    have hexp : (D + B) * (1 + calculateUrgencyFactor d') + bonus -
        ((D + B) * (1 + calculateUrgencyFactor d) + bonus) =
        (D + B) * (calculateUrgencyFactor d' - calculateUrgencyFactor d) := by
      ring
    have hge : 0 ≤ (D + B) * (calculateUrgencyFactor d' - calculateUrgencyFactor d) :=
      mul_nonneg (by linarith) (by linarith)
    linarith

/-- C6 witness: the formula and non-negativity on a concretely scored
entry, and each monotonicity conjunct instantiated at concrete weights,
urgency days and bonus. -/
theorem score_formula_and_monotonicity_witness :
    ((scoreSubject [] [] 0 subjB).score =
        (((scoreSubject [] [] 0 subjB).difficultyWeight : Rat) +
            ((scoreSubject [] [] 0 subjB).dedicationWeight : Rat)) *
          (1 + (scoreSubject [] [] 0 subjB).urgencyFactor) +
          (scoreSubject [] [] 0 subjB).delayBonus ∧
      0 ≤ (scoreSubject [] [] 0 subjB).score) ∧
    ((1 + 1 : Rat) * (1 + calculateUrgencyFactor 9) + 0 ≤
      (2 + 1) * (1 + calculateUrgencyFactor 9) + 0) ∧
    ((1 + 2 : Rat) * (1 + calculateUrgencyFactor 9) + 2 ≤
      (1 + 5) * (1 + calculateUrgencyFactor 9) + 2) ∧
    ((3 + 4 : Rat) * (1 + calculateUrgencyFactor 9) + 0 ≤
      (3 + 4) * (1 + calculateUrgencyFactor 0) + 0) := by
  refine ⟨score_formula_and_monotonicity.1 [subjB] [] [] 0
      (scoreSubject [] [] 0 subjB)
      (by
        have h : calculateSubjectPriorities [subjB] [] [] 0 =
            [scoreSubject [] [] 0 subjB] := rfl
        rw [h]
        exact List.mem_singleton.mpr rfl),
    score_formula_and_monotonicity.2.1 1 2 1 (calculateUrgencyFactor 9) 0
      (by norm_num) (by norm_num) (by norm_num) (by norm_num) (by norm_num)
      ⟨9, rfl⟩ (by norm_num),
    score_formula_and_monotonicity.2.2.1 1 2 5 (calculateUrgencyFactor 9) 2
      (by norm_num) (by norm_num) (by norm_num) (by norm_num) (by norm_num)
      ⟨9, rfl⟩ (by norm_num),
    score_formula_and_monotonicity.2.2.2 3 4 0 9 0
      (by norm_num) (by norm_num) (by norm_num) (by norm_num)
      (by decide) (by norm_num)⟩

namespace Legacy

/-- Unfolding of the legacy segmentation loop in the stop case (remaining
minutes under 20): the accumulated blocks are returned, for any fuel. -/
theorem generateStudyBlocksLoop_stop (slotId : String) (ps : List SubjectPriority)
    (slotEnd : Int) (fuel : Nat) (c : Int) (i : Nat) (bl : List StudyBlock)
    (hlt : (slotEnd - c) / 60000 < 20) :
    generateStudyBlocksLoop slotId ps slotEnd fuel c i bl = bl := by
  cases fuel with
  | zero => rfl
  | succ n =>
    unfold generateStudyBlocksLoop
    simp only [if_pos hlt]

/-- One-step unfolding of the legacy segmentation loop in the go case:
one study block, then either a break plus recursion or termination. -/
theorem generateStudyBlocksLoop_step (slotId : String) (ps : List SubjectPriority)
    (slotEnd : Int) (fuel : Nat) (c : Int) (i : Nat) (bl : List StudyBlock)
    (hge : ¬ (slotEnd - c) / 60000 < 20) :
    generateStudyBlocksLoop slotId ps slotEnd (fuel + 1) c i bl =
      (if 20 ≤ (slotEnd - (c + min STUDY_BLOCK_MINUTES ((slotEnd - c) / 60000) * 60000 +
          BREAK_MINUTES * 60000)) / 60000 then
        generateStudyBlocksLoop slotId ps slotEnd fuel
          (c + min STUDY_BLOCK_MINUTES ((slotEnd - c) / 60000) * 60000 +
            BREAK_MINUTES * 60000)
          (i + 1)
          ((bl ++
            [{ id := slotId ++ "-block-" ++ toString bl.length,
               subject := (ps.getD (i % ps.length) default).subject,
               startTime := c,
               endTime := c + min STUDY_BLOCK_MINUTES ((slotEnd - c) / 60000) * 60000,
               isBreak := false, freeSlotId := some slotId }]) ++
            [{ id := slotId ++ "-break-" ++ toString (bl.length + 1),
               subject := (ps.getD (i % ps.length) default).subject,
               startTime := c + min STUDY_BLOCK_MINUTES ((slotEnd - c) / 60000) * 60000,
               endTime := c + min STUDY_BLOCK_MINUTES ((slotEnd - c) / 60000) * 60000 +
                 BREAK_MINUTES * 60000,
               isBreak := true, freeSlotId := some slotId }])
      else bl ++
        [{ id := slotId ++ "-block-" ++ toString bl.length,
           subject := (ps.getD (i % ps.length) default).subject,
           startTime := c,
           endTime := c + min STUDY_BLOCK_MINUTES ((slotEnd - c) / 60000) * 60000,
           isBreak := false, freeSlotId := some slotId }]) := by
  conv_lhs => unfold generateStudyBlocksLoop
  simp only [if_neg hge, List.length_append, List.length_cons, List.length_nil]

/-- Invariant of the legacy segmentation loop, by induction on the fuel:
when the fuel is at least the remaining milliseconds, the loop appends a
tail of blocks that is chained from the cursor, stays inside the slot,
has 10-minute breaks and 20-to-50-minute study blocks, ends in a study
block whenever it is entered with at least 20 usable minutes, and is
empty otherwise. -/
theorem generateStudyBlocksLoop_spec (slotId : String) (ps : List SubjectPriority)
    (slotEnd : Int) :
    ∀ (fuel : Nat) (c : Int) (i : Nat) (bl : List StudyBlock),
      (slotEnd - c).toNat ≤ fuel →
      ∃ tail,
        generateStudyBlocksLoop slotId ps slotEnd fuel c i bl = bl ++ tail ∧
        chainFrom c tail = true ∧
        (∀ b ∈ tail, b.endTime ≤ slotEnd ∧
          (b.isBreak = true → b.endTime - b.startTime = BREAK_MINUTES * 60000) ∧
          (b.isBreak = false → 20 * 60000 ≤ b.endTime - b.startTime ∧
            b.endTime - b.startTime ≤ STUDY_BLOCK_MINUTES * 60000)) ∧
        (¬ (slotEnd - c) / 60000 < 20 →
          ∃ front lastb, tail = front ++ [lastb] ∧ lastb.isBreak = false) ∧
        ((slotEnd - c) / 60000 < 20 → tail = []) := by
  intro fuel
  induction fuel with
  | zero =>
    intro c i bl hfuel
    have hlt : (slotEnd - c) / 60000 < 20 := by omega
    exact ⟨[], by rw [generateStudyBlocksLoop_stop slotId ps slotEnd 0 c i bl hlt,
        List.append_nil], rfl, by simp, fun h => absurd hlt h, fun _ => rfl⟩
  | succ n ihn =>
    intro c i bl hfuel
    by_cases hlt : (slotEnd - c) / 60000 < 20
    · exact ⟨[], by rw [generateStudyBlocksLoop_stop slotId ps slotEnd (n + 1) c i bl hlt,
        List.append_nil], rfl, by simp, fun h => absurd hlt h, fun _ => rfl⟩
    · have hrem : 1200000 ≤ slotEnd - c := by
        simp only [not_lt] at hlt
        omega
      set studyEnd := c + min STUDY_BLOCK_MINUTES ((slotEnd - c) / 60000) * 60000 with hSE
      have hSE1 : c + 1200000 ≤ studyEnd := by
        rw [hSE]
        simp only [STUDY_BLOCK_MINUTES, not_lt] at *
        omega
      have hSE2 : studyEnd ≤ slotEnd ∧ studyEnd ≤ c + 3000000 := by
        rw [hSE]
        simp only [STUDY_BLOCK_MINUTES, not_lt] at *
        constructor
        · omega
        · omega
      by_cases hbr : 20 ≤ (slotEnd - (studyEnd + BREAK_MINUTES * 60000)) / 60000
      · -- study plus break, then recurse on the rest of the slot
        have hfuel' : (slotEnd - (studyEnd + BREAK_MINUTES * 60000)).toNat ≤ n := by
          simp only [BREAK_MINUTES] at *
          omega
        obtain ⟨tail', heq', hchain', hall', hlast', hstop'⟩ :=
          ihn (studyEnd + BREAK_MINUTES * 60000) (i + 1)
            ((bl ++
              [{ id := slotId ++ "-block-" ++ toString bl.length,
                 subject := (ps.getD (i % ps.length) default).subject,
                 startTime := c, endTime := studyEnd,
                 isBreak := false, freeSlotId := some slotId }]) ++
              [{ id := slotId ++ "-break-" ++ toString (bl.length + 1),
                 subject := (ps.getD (i % ps.length) default).subject,
                 startTime := studyEnd, endTime := studyEnd + BREAK_MINUTES * 60000,
                 isBreak := true, freeSlotId := some slotId }]) hfuel'
        refine ⟨{ id := slotId ++ "-block-" ++ toString bl.length,
                  subject := (ps.getD (i % ps.length) default).subject,
                  startTime := c, endTime := studyEnd,
                  isBreak := false, freeSlotId := some slotId } ::
                { id := slotId ++ "-break-" ++ toString (bl.length + 1),
                  subject := (ps.getD (i % ps.length) default).subject,
                  startTime := studyEnd, endTime := studyEnd + BREAK_MINUTES * 60000,
                  isBreak := true, freeSlotId := some slotId } :: tail', ?_, ?_, ?_, ?_, ?_⟩
        · rw [generateStudyBlocksLoop_step slotId ps slotEnd n c i bl hlt, if_pos hbr,
            heq']
          simp
        · simp only [chainFrom, beq_self_eq_true, Bool.true_and]
          exact hchain'
        · intro b hb
          rcases List.mem_cons.mp hb with rfl | hb
          · refine ⟨hSE2.1, fun h => by simp at h, fun _ => ?_⟩
            dsimp only
            simp only [STUDY_BLOCK_MINUTES] at hSE2 ⊢
            omega
          · rcases List.mem_cons.mp hb with rfl | hb
            · refine ⟨?_, fun _ => ?_, fun h => by simp at h⟩
              · dsimp only
                simp only [BREAK_MINUTES] at hbr ⊢
                omega
              · dsimp only
                omega
            · exact hall' b hb
        · intro _
          obtain ⟨front', lastb', htail', hlb'⟩ := hlast' (by omega)
          exact ⟨_ :: _ :: front', lastb', by rw [htail']; rfl, hlb'⟩
        · intro h
          exact absurd h hlt
      · -- a single study block fits, then the loop stops
        refine ⟨[{ id := slotId ++ "-block-" ++ toString bl.length,
                   subject := (ps.getD (i % ps.length) default).subject,
                   startTime := c, endTime := studyEnd,
                   isBreak := false, freeSlotId := some slotId }], ?_, ?_, ?_, ?_, ?_⟩
        · rw [generateStudyBlocksLoop_step slotId ps slotEnd n c i bl hlt, if_neg hbr]
        · simp [chainFrom]
        · intro b hb
          rcases List.mem_cons.mp hb with rfl | hb
          · refine ⟨hSE2.1, fun h => by simp at h, fun _ => ?_⟩
            dsimp only
            simp only [STUDY_BLOCK_MINUTES] at hSE2 ⊢
            omega
          · exact absurd hb (List.not_mem_nil b)
        · intro _
          exact ⟨[], _, rfl, rfl⟩
        · intro h
          exact absurd h hlt

/-- C5: for a free slot with an end time and a non-empty priority list,
every block the legacy segmenter emits ends no later than the slot end,
and a non-empty result always ends in a study block, never a break. -/
theorem blocks_within_slot_and_last_study (freeSlot : CalendarEvent)
    (ps : List SubjectPriority) (slotEnd : Int)
    (hend : freeSlot.end_datetime = some slotEnd) (hps : ps ≠ []) :
    (∀ b ∈ generateStudyBlocks freeSlot ps, b.endTime ≤ slotEnd) ∧
    (generateStudyBlocks freeSlot ps ≠ [] →
      ∃ front lastb, generateStudyBlocks freeSlot ps = front ++ [lastb] ∧
        lastb.isBreak = false) := by
  have hlen : ¬ ps.length = 0 := fun h => hps (List.length_eq_zero.mp h)
  have hunfold : generateStudyBlocks freeSlot ps =
      generateStudyBlocksLoop freeSlot.id ps slotEnd
        (slotEnd - freeSlot.start_datetime).toNat freeSlot.start_datetime 0 [] := by
    unfold generateStudyBlocks
    rw [hend]
    simp only [if_neg hlen]
  obtain ⟨tail, heq, hchain, hall, hlast, hstop⟩ :=
    generateStudyBlocksLoop_spec freeSlot.id ps slotEnd
      (slotEnd - freeSlot.start_datetime).toNat freeSlot.start_datetime 0 []
      le_rfl
  rw [hunfold, heq, List.nil_append]
  refine ⟨fun b hb => (hall b hb).1, fun hne => ?_⟩
  by_cases hrem : (slotEnd - freeSlot.start_datetime) / 60000 < 20
  · exact absurd (hstop hrem) hne
  · exact hlast hrem

/-- C5 witness: a 45-minute slot with one priority yields a single
45-minute study block; it ends within the slot and is the (study) last
block. -/
theorem blocks_within_slot_and_last_study_witness :
    blk45.endTime ≤ 3700000 ∧
    ∃ front lastb, generateStudyBlocks slot45 [pX] = front ++ [lastb] ∧
      lastb.isBreak = false :=
  ⟨(blocks_within_slot_and_last_study slot45 [pX] 3700000 rfl
      (by decide)).1 blk45 (by decide),
    (blocks_within_slot_and_last_study slot45 [pX] 3700000 rfl
      (by decide)).2 (by decide)⟩

/-- C10: for a free slot with an end time, the legacy segmenter's output
is gap-free from the slot start (the first block starts at the slot
start and each block starts where its predecessor ends, hence blocks are
strictly ordered and non-overlapping), every block has positive length,
every break block is exactly 10 minutes (600000 ms) and every study
block is between 20 and 50 minutes (1200000 to 3000000 ms). -/
theorem blocks_contiguous_and_sized (freeSlot : CalendarEvent)
    (ps : List SubjectPriority) (slotEnd : Int)
    (hend : freeSlot.end_datetime = some slotEnd) :
    chainFrom freeSlot.start_datetime (generateStudyBlocks freeSlot ps) = true ∧
    (generateStudyBlocks freeSlot ps ≠ [] →
      ∃ b rest, generateStudyBlocks freeSlot ps = b :: rest ∧
        b.startTime = freeSlot.start_datetime) ∧
    (∀ b ∈ generateStudyBlocks freeSlot ps,
      b.startTime < b.endTime ∧
      (b.isBreak = true → b.endTime - b.startTime = BREAK_MINUTES * 60000) ∧
      (b.isBreak = false → 20 * 60000 ≤ b.endTime - b.startTime ∧
        b.endTime - b.startTime ≤ STUDY_BLOCK_MINUTES * 60000)) := by
  by_cases hlen : ps.length = 0
  · refine ⟨?_, ?_, ?_⟩ <;> simp [generateStudyBlocks, hend, hlen, chainFrom]
  · have hunfold : generateStudyBlocks freeSlot ps =
        generateStudyBlocksLoop freeSlot.id ps slotEnd
          (slotEnd - freeSlot.start_datetime).toNat freeSlot.start_datetime 0 [] := by
      unfold generateStudyBlocks
      rw [hend]
      simp only [if_neg hlen]
    obtain ⟨tail, heq, hchain, hall, hlast, hstop⟩ :=
      generateStudyBlocksLoop_spec freeSlot.id ps slotEnd
        (slotEnd - freeSlot.start_datetime).toNat freeSlot.start_datetime 0 []
        le_rfl
    rw [hunfold, heq, List.nil_append]
    refine ⟨hchain, ?_, ?_⟩
    · intro hne
      match htail : tail, hchain with
      | b :: rest, hch =>
        simp only [chainFrom, Bool.and_eq_true, beq_iff_eq] at hch
        exact ⟨b, rest, rfl, hch.1⟩
    · intro b hb
      obtain ⟨hle, hbrk, hstudy⟩ := hall b hb
      refine ⟨?_, hbrk, hstudy⟩
      rcases hB : b.isBreak with _ | _
      · have := hstudy hB
        simp only [STUDY_BLOCK_MINUTES] at this
        omega
      · have := hbrk hB
        simp only [BREAK_MINUTES] at this
        omega

/-- C10 witness: in the 120-minute slot the segmenter emits a chained
study/break/study sequence; the middle break block is exactly 10
minutes, starts after the first 50-minute study block and ends where the
second one starts. -/
theorem blocks_contiguous_and_sized_witness :
    chainFrom slotA.start_datetime (generateStudyBlocks slotA [pX]) = true ∧
    (blkBreakA.startTime < blkBreakA.endTime ∧
      (blkBreakA.isBreak = true →
        blkBreakA.endTime - blkBreakA.startTime = BREAK_MINUTES * 60000) ∧
      (blkBreakA.isBreak = false →
        20 * 60000 ≤ blkBreakA.endTime - blkBreakA.startTime ∧
        blkBreakA.endTime - blkBreakA.startTime ≤ STUDY_BLOCK_MINUTES * 60000)) :=
  ⟨(blocks_contiguous_and_sized slotA [pX] 8200000 rfl).1,
    (blocks_contiguous_and_sized slotA [pX] 8200000 rfl).2.2 blkBreakA (by decide)⟩

end Legacy

/-- Decomposition of membership in the suggestion list: the suggestion's
slot passed both slot filters, and a priority entry was assigned to it
whose segmentation forms its blocks. -/
theorem generateSuggestions_cases {subs : List Subject}
    {slots dls : List CalendarEvent} {dels : List StudyDelay} {now : Int}
    {s : StudySuggestion}
    (hs : s ∈ generateSuggestions subs slots dls dels now) :
    (isAfter s.freeSlot.start_datetime now = true ∧
      strTruthy s.freeSlot.subject_id = false) ∧
    ∃ ap : SubjectPriority, s.assignedSubject = some ap.subject ∧
      s.blocks = generateStudyBlocksForSubject s.freeSlot ap := by
  simp only [generateSuggestions] at hs
  split at hs
  · exact absurd hs (List.not_mem_nil s)
  · split at hs
    · exact absurd hs (List.not_mem_nil s)
    · rw [List.mem_filter] at hs
      obtain ⟨hmap, hlen⟩ := hs
      rw [List.mem_map] at hmap
      obtain ⟨⟨idx, slot⟩, hmem, hf⟩ := hmap
      have hslot : slot ∈ ((slots.filter
          (fun slot => isAfter slot.start_datetime now)).filter
          (fun slot => !strTruthy slot.subject_id)).insertionSort startAsc :=
        List.snd_mem_of_mem_enum hmem
      rw [(List.perm_insertionSort startAsc _).mem_iff, List.mem_filter] at hslot
      obtain ⟨hslot1, hnotruthy⟩ := hslot
      rw [List.mem_filter] at hslot1
      obtain ⟨_, hfuture⟩ := hslot1
      rcases hd : (distributeSubjectsToSlots
          (calculateSubjectPriorities subs dls dels now)
          (((slots.filter (fun slot => isAfter slot.start_datetime now)).filter
            (fun slot => !strTruthy slot.subject_id)).insertionSort
              startAsc).length).get? idx with _ | ap
      · rw [hd] at hf
        subst hf
        simp at hlen
      · rw [hd] at hf
        subst hf
        refine ⟨⟨hfuture, by simpa using hnotruthy⟩, ap, rfl, rfl⟩

/-- Every block the canonical per-subject segmentation loop appends keeps
the fixed subject of the slot. -/
theorem blocksLoopForSubject_subject (slotId : String) (subj : Subject)
    (slotEnd : Int) :
    ∀ (fuel : Nat) (c : Int) (bl : List StudyBlock),
      (∀ b ∈ bl, b.subject = subj) →
      ∀ b ∈ blocksLoopForSubject slotId subj slotEnd fuel c bl,
        b.subject = subj := by
  intro fuel
  induction fuel with
  | zero =>
    intro c bl hbl b hb
    exact hbl b hb
  | succ n ihn =>
    intro c bl hbl b hb
    unfold blocksLoopForSubject at hb
    by_cases hlt : (slotEnd - c) / 60000 < 20
    · rw [if_pos hlt] at hb
      exact hbl b hb
    · rw [if_neg hlt] at hb
      dsimp only at hb
      split at hb
      · refine ihn _ _ ?_ b hb
        intro x hx
        rcases List.mem_append.mp hx with hx | hx
        · rcases List.mem_append.mp hx with hx | hx
          · exact hbl x hx
          · rcases List.mem_singleton.mp hx with rfl
            rfl
        · rcases List.mem_singleton.mp hx with rfl
          rfl
      · rcases List.mem_append.mp hb with hb | hb
        · exact hbl b hb
        · rcases List.mem_singleton.mp hb with rfl
          rfl

/-- Every block the canonical segmenter emits belongs to the priority
entry assigned to the slot. -/
theorem generateStudyBlocksForSubject_subject (freeSlot : CalendarEvent)
    (priority : SubjectPriority) :
    ∀ b ∈ generateStudyBlocksForSubject freeSlot priority,
      b.subject = priority.subject := by
  intro b hb
  unfold generateStudyBlocksForSubject at hb
  rcases h : freeSlot.end_datetime with _ | slotEnd
  · rw [h] at hb
    exact absurd hb (List.not_mem_nil b)
  · rw [h] at hb
    exact blocksLoopForSubject_subject freeSlot.id priority.subject slotEnd
      _ _ [] (by simp) b hb

/-- C4: every suggestion the orchestrator returns is for a free slot that
starts strictly after `now` and carries no manual subject assignment
(its `subject_id` is absent, null or empty — JavaScript-falsy). -/
theorem suggestions_only_future_unassigned (subs : List Subject)
    (slots dls : List CalendarEvent) (dels : List StudyDelay) (now : Int)
    (s : StudySuggestion)
    (hs : s ∈ generateSuggestions subs slots dls dels now) :
    now < s.freeSlot.start_datetime ∧
      strTruthy s.freeSlot.subject_id = false := by
  obtain ⟨⟨hfut, hman⟩, -⟩ := generateSuggestions_cases hs
  refine ⟨?_, hman⟩
  simpa [isAfter] using hfut

/-- C7: all study blocks of one suggestion reference the single subject
assigned to that free slot. -/
theorem suggestion_blocks_single_subject (subs : List Subject)
    (slots dls : List CalendarEvent) (dels : List StudyDelay) (now : Int)
    (s : StudySuggestion)
    (hs : s ∈ generateSuggestions subs slots dls dels now) :
    ∃ subj, s.assignedSubject = some subj ∧
      ∀ b ∈ s.blocks, b.subject = subj := by
  obtain ⟨-, ap, hassigned, hblocks⟩ := generateSuggestions_cases hs
  refine ⟨ap.subject, hassigned, fun b hb => ?_⟩
  exact generateStudyBlocksForSubject_subject s.freeSlot ap b (hblocks ▸ hb)

/-- The scorer evaluated on the deadline-free fixture subject. -/
theorem scoreSubject_subjB_eq : scoreSubject [] [] 0 subjB = pB := by
  have h1 : scoreSubject [] [] 0 subjB =
      { subject := subjB, difficultyWeight := 3, dedicationWeight := 3,
        urgencyFactor := 0, delayBonus := 0,
        score := ((3 : Rat) + 3) * (1 + 0) + 0,
        nearestDeadline := none } := rfl
  rw [h1]
  simp only [pB]
  norm_num

/-- The orchestrator evaluated on the one-subject one-slot fixture
scenario. -/
theorem generateSuggestions_fixture_eq :
    generateSuggestions [subjB] [slotA] [] [] 0 = [sugB] := by
  have hcalc : calculateSubjectPriorities [subjB] [] [] 0 = [pB] := by
    have h : calculateSubjectPriorities [subjB] [] [] 0 =
        [scoreSubject [] [] 0 subjB] := rfl
    rw [h, scoreSubject_subjB_eq]
  simp only [generateSuggestions, hcalc]
  decide

/-- C4 witness: the concrete suggestion for `subjB` in `slotA` is for a
slot starting after time 0 with no manual assignment. -/
theorem suggestions_only_future_unassigned_witness :
    (0 : Int) < sugB.freeSlot.start_datetime ∧
      strTruthy sugB.freeSlot.subject_id = false :=
  suggestions_only_future_unassigned [subjB] [slotA] [] [] 0 sugB
    (by
      rw [generateSuggestions_fixture_eq]
      exact List.mem_singleton.mpr rfl)

/-- C7 witness: in the concrete suggestion for `subjB` in `slotA`, every
block belongs to the assigned subject. -/
theorem suggestion_blocks_single_subject_witness :
    ∃ subj, sugB.assignedSubject = some subj ∧
      ∀ b ∈ sugB.blocks, b.subject = subj :=
  suggestion_blocks_single_subject [subjB] [slotA] [] [] 0 sugB
    (by
      rw [generateSuggestions_fixture_eq]
      exact List.mem_singleton.mpr rfl)

namespace Sigaa

/-- Characterisation of a successful pattern match: the code is one
digit, one shift letter in either case, then one or more digits; the
extractor returns the digit, the uppercased letter and the block
digits. -/
theorem extractComponents_eq_some_iff {s : String} {d sh : Char}
    {bl : List Char} :
    extractComponents s = some (d, sh, bl) ↔
      ∃ sh0, s.data = d :: sh0 :: bl ∧ sh = sh0.toUpper ∧
        (d.isDigit && isShiftLetter sh0 && !bl.isEmpty &&
          bl.all Char.isDigit) = true := by
  unfold extractComponents
  rcases hs : s.data with _ | ⟨a, _ | ⟨b, t⟩⟩
  · simp
  · simp
  · by_cases hC : (a.isDigit && isShiftLetter b && !t.isEmpty &&
      t.all Char.isDigit) = true
    · simp only [hC, if_pos, Option.some.injEq]
      constructor
      · rintro ⟨rfl, rfl, rfl⟩
        exact ⟨b, rfl, rfl, hC⟩
      · rintro ⟨sh0, heq, rfl, hC0⟩
        injection heq with h1 h2
        injection h2 with h2 h3
        subst h1
        subst h2
        subst h3
        rfl
    · simp only [Bool.not_eq_true] at hC
      simp only [hC, Bool.false_eq_true, if_false]
      constructor
      · rintro h
        exact absurd h (by simp)
      · rintro ⟨sh0, heq, rfl, hC0⟩
        injection heq with h1 h2
        injection h2 with h2 h3
        subst h1
        subst h2
        subst h3
        rw [hC0] at hC
        cases hC

/-- The weekday table accepts exactly the digits 2 through 7. -/
theorem DAY_MAP_isSome_iff (c : Char) :
    (DAY_MAP c).isSome = true ↔ c ∈ ['2', '3', '4', '5', '6', '7'] := by
  unfold DAY_MAP
  split_ifs with h2 h3 h4 h5 h6 h7 <;>
    simp_all

/-- The last element (with default) of a non-empty list is a member. -/
theorem getLastD_mem {α : Type} (l : List α) (d : α) (h : l ≠ []) :
    l.getLastD d ∈ l := by
  induction l generalizing d with
  | nil => exact absurd rfl h
  | cons a t ih =>
    cases ht : t with
    | nil => simp [List.getLastD]
    | cons b u =>
      rw [List.getLastD_cons]
      rw [ht] at ih
      exact List.mem_cons_of_mem a (ih a (by simp))

/-- C9 (amended): the single-code decoder returns nothing exactly when
the trimmed, uppercased code fails the pattern (one digit, M/T/N, one or
more digits), its weekday digit is outside 2..7, or no block digit is a
valid index for the selected shift; otherwise it returns a decoded
result. -/
theorem parseSigaaSchedule_none_iff (code : String) :
    parseSigaaSchedule code = none ↔
      ¬ ∃ day shift blocks,
        (jsToUpper (jsTrim code)).data = day :: shift :: blocks ∧
        (day.isDigit && isShiftLetter shift && !blocks.isEmpty &&
          blocks.all Char.isDigit) = true ∧
        day ∈ ['2', '3', '4', '5', '6', '7'] ∧
        blocks.any (fun b => validBlockIndex shift.toUpper b) = true := by
  by_cases hempty : code = ""
  · subst hempty
    constructor
    · intro _
      rintro ⟨d, sh, bl, hdata, -⟩
      rw [show (jsToUpper (jsTrim "")).data = [] from rfl] at hdata
      exact List.noConfusion hdata
    · intro _
      rfl
  · unfold parseSigaaSchedule
    rw [if_neg hempty]
    rcases hext : extractComponents (jsToUpper (jsTrim code)) with _ | ⟨day, shift, blocks⟩
    · simp only [hext]
      constructor
      · intro _
        rintro ⟨d, sh, bl, hdata, hC, -, -⟩
        have hsome : extractComponents (jsToUpper (jsTrim code)) = some (d, sh.toUpper, bl) :=
          extractComponents_eq_some_iff.mpr ⟨sh, hdata, rfl, hC⟩
        rw [hext] at hsome
        exact Option.noConfusion hsome
      · intro _
        trivial
    · obtain ⟨sh0, hdata, hshift, hC⟩ := extractComponents_eq_some_iff.mp hext
      subst hshift
      simp only [hext]
      rcases hday : DAY_MAP day with _ | w
      · simp only [hday]
        constructor
        · intro _
          rintro ⟨d, sh, bl, hdata', -, hmem, -⟩
          rw [hdata] at hdata'
          injection hdata' with h1 h2
          subst h1
          have hd : (DAY_MAP day).isSome = true := (DAY_MAP_isSome_iff day).mpr hmem
          rw [hday] at hd
          exact Bool.noConfusion hd
        · intro _
          trivial
      · simp only [hday]
        by_cases hvb : (blocks.filter
            (fun b => (SHIFT_BLOCKS sh0.toUpper b).isSome)).length = 0
        · rw [if_pos hvb]
          constructor
          · intro _
            rintro ⟨d, sh, bl, hdata', hC', hmem, hany⟩
            rw [hdata] at hdata'
            injection hdata' with h1 h2
            injection h2 with h2 h3
            subst h1
            subst h2
            subst h3
            rw [List.any_eq_true] at hany
            obtain ⟨b, hbmem, hbval⟩ := hany
            have hbVB : b ∈ blocks.filter
                (fun b => (SHIFT_BLOCKS sh0.toUpper b).isSome) :=
              List.mem_filter.mpr ⟨hbmem, hbval⟩
            rw [List.length_eq_zero] at hvb
            rw [hvb] at hbVB
            exact absurd hbVB (List.not_mem_nil b)
          · intro _
            trivial
        · rw [if_neg hvb]
          rcases hsort : (blocks.filter
              (fun b => (SHIFT_BLOCKS sh0.toUpper b).isSome)).insertionSort
              (fun a b => digitVal a ≤ digitVal b) with _ | ⟨first, rest⟩
          · exfalso
            have hlen := (List.perm_insertionSort
              (fun a b => digitVal a ≤ digitVal b)
              (blocks.filter (fun b => (SHIFT_BLOCKS sh0.toUpper b).isSome))).length_eq
            rw [hsort] at hlen
            exact hvb hlen.symm
          · have hfVB : first ∈ blocks.filter
                (fun b => (SHIFT_BLOCKS sh0.toUpper b).isSome) := by
              rw [← (List.perm_insertionSort
                (fun a b => digitVal a ≤ digitVal b) _).mem_iff, hsort]
              exact List.mem_cons_self _ _
            have hlVB : (first :: rest).getLastD first ∈ blocks.filter
                (fun b => (SHIFT_BLOCKS sh0.toUpper b).isSome) := by
              rw [← (List.perm_insertionSort
                (fun a b => digitVal a ≤ digitVal b) _).mem_iff, hsort]
              exact getLastD_mem _ _ (by simp)
            have hfirst : (SHIFT_BLOCKS sh0.toUpper first).isSome = true :=
              (List.mem_filter.mp hfVB).2
            have hlast : (SHIFT_BLOCKS sh0.toUpper
                ((first :: rest).getLastD first)).isSome = true :=
              (List.mem_filter.mp hlVB).2
            simp only [hsort]
            rcases hfb : SHIFT_BLOCKS sh0.toUpper first with _ | fb
            · rw [hfb] at hfirst
              exact absurd hfirst (by simp)
            · rcases hlb : SHIFT_BLOCKS sh0.toUpper
                  ((first :: rest).getLastD first) with _ | lb
              · rw [hlb] at hlast
                exact absurd hlast (by simp)
              · simp only [hfb, hlb]
                constructor
                · intro h
                  exact absurd h (by simp)
                · intro hnex
                  exfalso
                  apply hnex
                  refine ⟨day, sh0, blocks, hdata, hC,
                    (DAY_MAP_isSome_iff day).mp (by rw [hday]; rfl), ?_⟩
                  exact List.any_eq_true.mpr ⟨first,
                    (List.mem_filter.mp hfVB).1, (List.mem_filter.mp hfVB).2⟩

/-- C9 counterexample: the claim as stated is false for the input
" 3N34": the raw string fails the pattern (it starts with a space), yet
the decoder, which trims before matching, returns a decoded result
rather than null. -/
theorem parseSigaaSchedule_trim_counterexample :
    matchesSigaaPattern " 3N34" = false ∧
      parseSigaaSchedule " 3N34" =
        some { day_of_week := 2, start_time := "20:10", end_time := "21:50" } := by
  constructor <;> decide

/-- C9 witness: the amended characterisation applied to the concrete
invalid code "9X99", whose decode failure certifies that no successful
match exists for it. -/
theorem parseSigaaSchedule_none_iff_witness :
    ¬ ∃ day shift blocks,
        (jsToUpper (jsTrim "9X99")).data = day :: shift :: blocks ∧
        (day.isDigit && isShiftLetter shift && !blocks.isEmpty &&
          blocks.all Char.isDigit) = true ∧
        day ∈ ['2', '3', '4', '5', '6', '7'] ∧
        blocks.any (fun b => validBlockIndex shift.toUpper b) = true :=
  (parseSigaaSchedule_none_iff "9X99").mp (by decide)

end Sigaa

end StudyPlanner
